import Mathlib

/-!
Verification model of the secure-exam gateway (src/gateway/index.js and
src/gateway/db.js): the session orchestrator, the exam access resolver,
the clipboard-filtering WebSocket relay and the expiry sweeper.  Every
definition is a shallow embedding of the corresponding JavaScript code;
line references point into src/gateway/index.js unless noted otherwise.
-/

namespace SecureExam

/-! ## Protocol filtering relay (index.js lines 1566-1614)

A WebSocket `data` payload is either a binary Buffer (modelled as its
byte list) or some non-buffer frame (a text string). -/

inductive WsData where
  | buffer (bytes : List Nat)
  | text (s : String)
deriving DecidableEq, Repr

/-- Check `Buffer.isBuffer(data) && data.length > 0 && data[0] === 6`:
the browser→container handler blocks RFB ClientCutText (type 6). -/
def dropClientMessage : WsData → Bool
  | WsData.buffer (b :: _) => b == 6
  | _ => false

/-- Check `Buffer.isBuffer(data) && data.length > 0 && data[0] === 3`:
the container→browser handler blocks RFB ServerCutText (type 3). -/
def dropTargetMessage : WsData → Bool
  | WsData.buffer (b :: _) => b == 3
  | _ => false

/-- The `clientWs.on('message')` handler (lines 1568-1580): the list of
messages it delivers to the container-side connection.  A blocked
clipboard message yields `[]`; otherwise the message is sent verbatim
provided `targetWs.readyState === OPEN`. -/
def clientMessageHandler (targetOpen : Bool) (data : WsData) : List WsData :=
  if dropClientMessage data then []
  else if targetOpen then [data] else []

/-- The `targetWs.on('message')` handler (lines 1583-1595): the list of
messages it delivers to the browser-side connection. -/
def targetMessageHandler (clientOpen : Bool) (data : WsData) : List WsData :=
  if dropTargetMessage data then []
  else if clientOpen then [data] else []

/-! ## Durable data model (src/gateway/db.js)

Timestamps are integers (milliseconds since epoch); `start_time` and
`end_time` are nullable in the schema, hence `Option Int`. -/

structure Enrollment where
  id : Nat
  student_id : Nat
  course_id : Nat
deriving DecidableEq, Repr

structure Assignment where
  id : Nat
  course_id : Nat
  is_exam : Bool
  start_time : Option Int
  end_time : Option Int
deriving DecidableEq, Repr

inductive SessStatus where
  | pending
  | active
  | completed
deriving DecidableEq, Repr

/-- One row of the `exam_sessions` table (db.js lines 96-105). -/
structure ExamSessionRec where
  id : Nat
  assignment_id : Nat
  student_id : Nat
  container_id : Option String
  status : SessStatus
deriving DecidableEq, Repr

abbrev ExamDb := List ExamSessionRec

/-! ## db.js prepared statements over exam sessions (db.js lines 372-407) -/

/-- Query `SELECT * FROM exam_sessions WHERE student_id = ? AND assignment_id = ?`
(`.get` returns the first matching row). -/
def getExamSessionByStudentAndAssignment (db : ExamDb) (sid aid : Nat) :
    Option ExamSessionRec :=
  db.find? (fun s => s.student_id == sid && s.assignment_id == aid)

/-- Statement `INSERT INTO exam_sessions (...) VALUES (?, ?, ?, 'active', datetime('now'))`:
a fresh row with status `active` and no container yet. -/
def createExamSession (db : ExamDb) (aid sid freshId : Nat) : ExamDb :=
  db ++ [⟨freshId, aid, sid, none, SessStatus.active⟩]

/-- Statement `UPDATE exam_sessions SET container_id = ? WHERE id = ?`. -/
def updateExamSessionContainer (db : ExamDb) (i : Nat) (cid : String) : ExamDb :=
  db.map (fun s => if s.id = i then { s with container_id := some cid } else s)

/-- Statement `UPDATE exam_sessions SET status = 'completed', ended_at = datetime('now')
WHERE id = ?`. -/
def endExamSession (db : ExamDb) (i : Nat) : ExamDb :=
  db.map (fun s => if s.id = i then { s with status := SessStatus.completed } else s)

/-- Query `SELECT ... FROM exam_sessions es JOIN assignments a ... WHERE
es.status = 'active'` (the joined `a.end_time` is looked up separately by
`assignmentEndTime`). -/
def getActiveExamSessions (db : ExamDb) : ExamDb :=
  db.filter (fun s => s.status == SessStatus.active)

/-- Query `SELECT a.* ... WHERE a.id = ? AND a.is_exam = 1` (db.js lines 401-407). -/
def getExamAssignment (assignments : List Assignment) (aid : Nat) :
    Option Assignment :=
  assignments.find? (fun a => a.id == aid && a.is_exam)

/-- The `a.end_time` column the active-session query joins in. -/
def assignmentEndTime (assignments : List Assignment) (aid : Nat) : Option Int :=
  (assignments.find? (fun a => a.id == aid)).bind (fun a => a.end_time)

/-! ## Docker runtime model

A container is a name plus a running flag; the daemon state is the list
of existing containers.  `container.id` is represented by the container
name (dockerode resolves both interchangeably). -/

structure DContainer where
  name : String
  running : Bool
deriving DecidableEq, Repr

abbrev DockerState := List DContainer

/-- Call `docker.getContainer(name)` followed by `container.inspect()`:
`some c` when the container exists, `none` when inspect throws. -/
def findContainer (d : DockerState) (name : String) : Option DContainer :=
  d.find? (fun c => c.name == name)

/-- Call `docker.createContainer` with the given name: a new, not yet running
container. -/
def createContainer (d : DockerState) (name : String) : DockerState :=
  ⟨name, false⟩ :: d

/-- Call `container.start()`. -/
def startContainer (d : DockerState) (name : String) : DockerState :=
  d.map (fun c => if c.name == name then { c with running := true } else c)

/-- Deterministic container name for regular access
(`getContainerName`, index.js lines 1070-1072). -/
def getContainerName (enr : Enrollment) : String :=
  "lms-" ++ toString enr.course_id ++ "-" ++ toString enr.student_id

/-- Deterministic container name for exam access (index.js line 1206). -/
def examContainerName (aid sid : Nat) : String :=
  "exam-" ++ toString aid ++ "-" ++ toString sid

/-! ## Regular access resolver (`GET /access/:token`, index.js lines 1075-1168)

The handler performs an inspect and, later, possibly a create and a
start against the Docker daemon.  Between the inspect and the create a
concurrent request may mutate daemon state, so the embedding takes two
daemon snapshots: `d0`, observed by the inspect, and `d1`, current when
the mutating calls run (a purely sequential request has `d0 = d1`).
A `createContainer` name conflict throws; the only catch is the
handler-wide `try/catch` (line 1164) which answers 500. -/

inductive AccessResult where
  | invalidToken
  | serverError
  | redirect (sessionKey : String)
deriving DecidableEq, Repr

inductive DockerAction where
  | inspect (name : String)
  | create (name : String)
  | start (name : String)
deriving DecidableEq, Repr

structure AccessOutcome where
  result : AccessResult
  docker : DockerState
  trace : List DockerAction
deriving DecidableEq, Repr

def accessToken (enrOpt : Option Enrollment) (d0 d1 : DockerState) : AccessOutcome :=
  match enrOpt with
  | none => ⟨AccessResult.invalidToken, d1, []⟩
  | some enr =>
    let name := getContainerName enr
    match findContainer d0 name with
    | some c =>
      if c.running then
        ⟨AccessResult.redirect name, d1, [DockerAction.inspect name]⟩
      else
        ⟨AccessResult.redirect name, startContainer d1 name,
         [DockerAction.inspect name, DockerAction.start name]⟩
    | none =>
      if (findContainer d1 name).isSome then
        -- createContainer throws a name conflict; the outer catch answers 500
        ⟨AccessResult.serverError, d1,
         [DockerAction.inspect name, DockerAction.create name]⟩
      else
        ⟨AccessResult.redirect name, startContainer (createContainer d1 name) name,
         [DockerAction.inspect name, DockerAction.create name, DockerAction.start name]⟩

/-! ## Exam access resolver (`GET /exam/:assignmentId/:token`,
index.js lines 1171-1306) -/

inductive ExamResult where
  | invalidToken
  | examNotFound
  | forbidden
  | notStarted (startTime : Int)
  | ended
  | alreadySubmitted
  | serverError
  | redirect (sessionKey : String)
deriving DecidableEq, Repr

/-- Condition `exam.start_time && new Date(exam.start_time) > now` (line 1194). -/
def beforeStart (startTime : Option Int) (now : Int) : Bool :=
  match startTime with
  | some t => now < t
  | none => false

/-- Condition `exam.end_time && new Date(exam.end_time) < now` (line 1198). -/
def afterEnd (endTime : Option Int) (now : Int) : Bool :=
  match endTime with
  | some t => t < now
  | none => false

structure ExamOutcome where
  result : ExamResult
  db : ExamDb
  docker : DockerState
  trace : List DockerAction
deriving DecidableEq, Repr

/-- The container block of the exam handler (index.js lines 1228-1300),
run after the exam session `sessId` is looked up or created and `db1`
reflects that: inspect the deterministically named container; start it
if stopped; create, record (`updateExamSessionContainer`) and start it
if missing.  A `createContainer` name conflict throws and the outer
catch answers 500. -/
def examContainerPhase (name : String) (sessId : Nat) (db1 : ExamDb)
    (d0 d1 : DockerState) : ExamOutcome :=
  match findContainer d0 name with
  | some c =>
    if c.running then
      ⟨ExamResult.redirect name, db1, d1, [DockerAction.inspect name]⟩
    else
      ⟨ExamResult.redirect name, db1, startContainer d1 name,
       [DockerAction.inspect name, DockerAction.start name]⟩
  | none =>
    if (findContainer d1 name).isSome then
      ⟨ExamResult.serverError, db1, d1,
       [DockerAction.inspect name, DockerAction.create name]⟩
    else
      ⟨ExamResult.redirect name, updateExamSessionContainer db1 sessId name,
       startContainer (createContainer d1 name) name,
       [DockerAction.inspect name, DockerAction.create name,
        DockerAction.start name]⟩

/-- The exam access handler.  `freshId` is the rowid SQLite would assign
to a newly inserted exam session; `d0`/`d1` are the Docker snapshots as
in `accessToken`. -/
def examAccess (enrOpt : Option Enrollment) (assignments : List Assignment)
    (aid : Nat) (now : Int) (db : ExamDb) (freshId : Nat)
    (d0 d1 : DockerState) : ExamOutcome :=
  match enrOpt with
  | none => ⟨ExamResult.invalidToken, db, d1, []⟩
  | some enr =>
    match getExamAssignment assignments aid with
    | none => ⟨ExamResult.examNotFound, db, d1, []⟩
    | some exam =>
      if exam.course_id ≠ enr.course_id then ⟨ExamResult.forbidden, db, d1, []⟩
      else if beforeStart exam.start_time now then
        ⟨ExamResult.notStarted (exam.start_time.getD 0), db, d1, []⟩
      else if afterEnd exam.end_time now then ⟨ExamResult.ended, db, d1, []⟩
      else
        match getExamSessionByStudentAndAssignment db enr.student_id aid with
        | some s =>
          if s.status == SessStatus.completed then
            ⟨ExamResult.alreadySubmitted, db, d1, []⟩
          else
            examContainerPhase (examContainerName aid enr.student_id) s.id db d0 d1
        | none =>
          examContainerPhase (examContainerName aid enr.student_id) freshId
            (createExamSession db aid enr.student_id freshId) d0 d1

/-! ## Session termination and the expiry sweeper

Three code paths terminate an exam session with identical bodies:
the professor action (`POST /api/exam-sessions/:id/end`, lines 960-991),
the on-demand sweep (`POST /api/exam-sessions/check-expired`,
lines 994-1025) and the background interval sweep (lines 1628-1653).
Each stops and removes the container (when one is recorded), then marks
the durable record completed, then forgets the in-memory session key. -/

inductive Ev where
  | stopContainer (cid : String)
  | removeContainer (cid : String)
  | markCompleted (sessionId : Nat)
  | forgetKey (name : String)
deriving DecidableEq, Repr

/-- The event sequence every termination path emits for one session, in
program order: `container.stop(); container.remove()` (only when a
container id is recorded), then `db.endExamSession(session.id)`, then
`sessions.delete(containerName)`. -/
def terminationEvents (s : ExamSessionRec) : List Ev :=
  (match s.container_id with
   | some cid => [Ev.stopContainer cid, Ev.removeContainer cid]
   | none => []) ++
  [Ev.markCompleted s.id,
   Ev.forgetKey (examContainerName s.assignment_id s.student_id)]

/-- Condition `session.end_time && new Date(session.end_time) < now`, where the
session's `end_time` column is the joined assignment `end_time`. -/
def sessionExpired (assignments : List Assignment) (now : Int)
    (s : ExamSessionRec) : Bool :=
  match assignmentEndTime assignments s.assignment_id with
  | some t => t < now
  | none => false

/-- Durable-store effect of one sweep tick: iterate the snapshot of
active sessions and `endExamSession` each expired one. -/
def sweepDb (assignments : List Assignment) (now : Int) (db : ExamDb) : ExamDb :=
  (getActiveExamSessions db).foldl
    (fun acc s => if sessionExpired assignments now s then endExamSession acc s.id else acc)
    db

/-- Runtime/registry effect of one sweep tick: the termination events,
in loop order, for every expired session of the active snapshot (each
iteration reads only the snapshot row, so the events are independent of
the accumulated database updates). -/
def sweepEv (assignments : List Assignment) (now : Int) (db : ExamDb) : List Ev :=
  ((getActiveExamSessions db).filter (sessionExpired assignments now)).flatMap
    terminationEvents

/-- Number of non-completed exam-session rows recorded for one
(assignment, student) pair. -/
def nonCompletedCount (db : ExamDb) (aid sid : Nat) : Nat :=
  db.countP (fun t => t.assignment_id == aid && t.student_id == sid &&
    !(t.status == SessStatus.completed))

/-- The spec invariant: at most one non-completed ExamSession per
(assignment, student) pair. -/
def sessionInvariant (db : ExamDb) : Prop :=
  ∀ aid sid, nonCompletedCount db aid sid ≤ 1

/-! ## Theorems -/

/-- C1: for every relayed message of a recognized session, a leading
byte 6 in the browser→container direction is dropped entirely (never
delivered to the container side, whatever the target's state), a
leading byte 3 in the container→browser direction is dropped entirely,
and a message with any other leading byte is delivered to the opposite
side verbatim and unmodified. -/
theorem clipboard_filter_markers (bytes : List Nat) (b : Nat) (o : Bool) :
    clientMessageHandler o (WsData.buffer (6 :: bytes)) = [] ∧
    targetMessageHandler o (WsData.buffer (3 :: bytes)) = [] ∧
    (b ≠ 6 → clientMessageHandler true (WsData.buffer (b :: bytes)) =
      [WsData.buffer (b :: bytes)]) ∧
    (b ≠ 3 → targetMessageHandler true (WsData.buffer (b :: bytes)) =
      [WsData.buffer (b :: bytes)]) := by
  refine ⟨?_, ?_, fun h => ?_, fun h => ?_⟩
  · simp [clientMessageHandler, dropClientMessage]
  · simp [targetMessageHandler, dropTargetMessage]
  · simp [clientMessageHandler, dropClientMessage, h]
  · simp [targetMessageHandler, dropTargetMessage, h]

/-- Concrete instance of `clipboard_filter_markers`. -/
theorem clipboard_filter_markers_witness :
    clientMessageHandler true (WsData.buffer [0, 9]) = [WsData.buffer [0, 9]] ∧
    targetMessageHandler true (WsData.buffer [0, 9]) = [WsData.buffer [0, 9]] :=
  ⟨(clipboard_filter_markers [9] 0 true).2.2.1 (by decide),
   (clipboard_filter_markers [9] 0 true).2.2.2 (by decide)⟩

/-- C9: a relayed message that is not a Buffer, or is an empty Buffer,
is forwarded to the opposite side without any leading-byte inspection,
in both directions, regardless of its content. -/
theorem relay_forwards_nonbuffer (s : String) :
    clientMessageHandler true (WsData.text s) = [WsData.text s] ∧
    targetMessageHandler true (WsData.text s) = [WsData.text s] ∧
    clientMessageHandler true (WsData.buffer []) = [WsData.buffer []] ∧
    targetMessageHandler true (WsData.buffer []) = [WsData.buffer []] := by
  refine ⟨?_, ?_, ?_, ?_⟩ <;>
    simp [clientMessageHandler, targetMessageHandler,
      dropClientMessage, dropTargetMessage]

/-- Counterexample to C2 as stated: first access by enrollment
(student 7, course 3) whose inspect ran before a racing request created
`lms-3-7`, so its own create hits the name conflict.  The handler does
not catch the conflict and does not re-attach: it answers the generic
500 error, not a successful redirect. -/
theorem access_conflict_errors :
    (accessToken (some ⟨1, 7, 3⟩) [] [⟨"lms-3-7", true⟩]).result =
      AccessResult.serverError := by decide

/-- C2 amended: two concurrent first accesses for the same enrollment
leave exactly one container with the deterministic name; the winner is
redirected, but the loser's name-conflict is not caught — its request
fails with the generic 500 error and it performs no further mutation of
daemon state. -/
theorem access_conflict_amended (enr : Enrollment) :
    (accessToken (some enr) [] []).result =
      AccessResult.redirect (getContainerName enr) ∧
    (accessToken (some enr) []
      (accessToken (some enr) [] []).docker).result = AccessResult.serverError ∧
    (accessToken (some enr) []
      (accessToken (some enr) [] []).docker).docker =
      (accessToken (some enr) [] []).docker ∧
    ((accessToken (some enr) [] []).docker.filter
      (fun c => c.name == getContainerName enr)).length = 1 := by
  have h1 : accessToken (some enr) [] [] =
      ⟨AccessResult.redirect (getContainerName enr),
       [⟨getContainerName enr, true⟩],
       [DockerAction.inspect (getContainerName enr),
        DockerAction.create (getContainerName enr),
        DockerAction.start (getContainerName enr)]⟩ := by
    simp [accessToken, findContainer, createContainer, startContainer]
  have h2 : accessToken (some enr) [] [⟨getContainerName enr, true⟩] =
      ⟨AccessResult.serverError, [⟨getContainerName enr, true⟩],
       [DockerAction.inspect (getContainerName enr),
        DockerAction.create (getContainerName enr)]⟩ := by
    simp [accessToken, findContainer]
  rw [h1]
  refine ⟨rfl, ?_, ?_, ?_⟩
  · rw [h2]
  · rw [h2]
  · simp

/-- C7: a regular-access request whose deterministically named container
already exists and is running performs no mutating runtime call (no
create, no start), leaves the daemon state unchanged and answers a
redirect carrying the deterministic session key. -/
theorem access_running_idempotent (enr : Enrollment) (d : DockerState)
    (c : DContainer)
    (hfind : findContainer d (getContainerName enr) = some c)
    (hrun : c.running = true) :
    accessToken (some enr) d d =
      ⟨AccessResult.redirect (getContainerName enr), d,
       [DockerAction.inspect (getContainerName enr)]⟩ ∧
    DockerAction.create (getContainerName enr) ∉
      (accessToken (some enr) d d).trace ∧
    DockerAction.start (getContainerName enr) ∉
      (accessToken (some enr) d d).trace := by
  have h1 : accessToken (some enr) d d =
      ⟨AccessResult.redirect (getContainerName enr), d,
       [DockerAction.inspect (getContainerName enr)]⟩ := by
    simp [accessToken, hfind, hrun]
  refine ⟨h1, ?_, ?_⟩ <;> rw [h1] <;> simp

/-- Concrete instance of `access_running_idempotent`. -/
theorem access_running_idempotent_witness :
    accessToken (some ⟨1, 7, 3⟩) [⟨"lms-3-7", true⟩] [⟨"lms-3-7", true⟩] =
      ⟨AccessResult.redirect (getContainerName ⟨1, 7, 3⟩),
       [⟨"lms-3-7", true⟩],
       [DockerAction.inspect (getContainerName ⟨1, 7, 3⟩)]⟩ :=
  (access_running_idempotent ⟨1, 7, 3⟩ [⟨"lms-3-7", true⟩]
    ⟨"lms-3-7", true⟩ (by decide) rfl).1

/-- C4: an exam-access request inside the time window that finds a
completed ExamSession for the (student, assignment) pair answers the
already-submitted refusal, leaves the durable store and the container
runtime untouched and issues no container call. -/
theorem exam_already_submitted (enr : Enrollment)
    (assignments : List Assignment) (aid : Nat) (now : Int) (db : ExamDb)
    (freshId : Nat) (d0 d1 : DockerState) (exam : Assignment)
    (s : ExamSessionRec)
    (hex : getExamAssignment assignments aid = some exam)
    (hcourse : exam.course_id = enr.course_id)
    (hstart : beforeStart exam.start_time now = false)
    (hend : afterEnd exam.end_time now = false)
    (hsess : getExamSessionByStudentAndAssignment db enr.student_id aid = some s)
    (hdone : s.status = SessStatus.completed) :
    examAccess (some enr) assignments aid now db freshId d0 d1 =
      ⟨ExamResult.alreadySubmitted, db, d1, []⟩ := by
  simp [examAccess, hex, hcourse, hstart, hend, hsess, hdone]

/-- Concrete instance of `exam_already_submitted`. -/
theorem exam_already_submitted_witness :
    examAccess (some ⟨1, 4, 3⟩) [⟨9, 3, true, none, none⟩] 9 0
      [⟨5, 9, 4, none, SessStatus.completed⟩] 6 [] [] =
      ⟨ExamResult.alreadySubmitted,
       [⟨5, 9, 4, none, SessStatus.completed⟩], [], []⟩ :=
  exam_already_submitted ⟨1, 4, 3⟩ [⟨9, 3, true, none, none⟩] 9 0
    [⟨5, 9, 4, none, SessStatus.completed⟩] 6 [] []
    ⟨9, 3, true, none, none⟩ ⟨5, 9, 4, none, SessStatus.completed⟩
    (by decide) rfl rfl rfl (by decide) rfl

/-- Filtering commutes with mapping a function that does not change the
filtered predicate. -/
theorem filter_map_invariant {α : Type} (f : α → α) (p : α → Bool)
    (h : ∀ a, p (f a) = p a) (l : List α) :
    (l.map f).filter p = (l.filter p).map f := by
  induction l with
  | nil => rfl
  | cons a l ih =>
    by_cases hpa : p a
    · simp [List.filter_cons, h, hpa, ih]
    · simp [List.filter_cons, h, hpa, ih]

/-- The container phase either leaves the exam-session table as given or
records the fresh container id on session `sessId`. -/
theorem examContainerPhase_db (name : String) (sessId : Nat) (db1 : ExamDb)
    (d0 d1 : DockerState) :
    (examContainerPhase name sessId db1 d0 d1).db = db1 ∨
    (examContainerPhase name sessId db1 d0 d1).db =
      updateExamSessionContainer db1 sessId name := by
  unfold examContainerPhase
  cases hf : findContainer d0 name with
  | some c => by_cases hr : c.running <;> simp [hr]
  | none => by_cases hs : (findContainer d1 name).isSome <;> simp [hs]

/-- The container phase answers either a redirect or the generic 500. -/
theorem examContainerPhase_result (name : String) (sessId : Nat) (db1 : ExamDb)
    (d0 d1 : DockerState) :
    (examContainerPhase name sessId db1 d0 d1).result = ExamResult.redirect name ∨
    (examContainerPhase name sessId db1 d0 d1).result = ExamResult.serverError := by
  unfold examContainerPhase
  cases hf : findContainer d0 name with
  | some c => by_cases hr : c.running <;> simp [hr]
  | none => by_cases hs : (findContainer d1 name).isSome <;> simp [hs]

/-- Recording a container id never changes the (student, assignment)
projection used to key exam sessions. -/
theorem upd_filter_pair (db : ExamDb) (i : Nat) (c : String) (sid aid : Nat) :
    (updateExamSessionContainer db i c).filter
      (fun t => t.student_id == sid && t.assignment_id == aid) =
    (db.filter (fun t => t.student_id == sid && t.assignment_id == aid)).map
      (fun s => if s.id = i then { s with container_id := some c } else s) := by
  unfold updateExamSessionContainer
  exact filter_map_invariant _ _ (fun s => by by_cases h : s.id = i <;> simp [h]) db

/-- C3: with both `start_time` and `end_time` set, an exam-access request
before the start answers the not-started error carrying the scheduled
start and creates nothing; a request after the end answers the ended
error even when no ExamSession exists; a request inside the window is
never refused for timing and a first such request creates exactly one
ExamSession, in the `active` state. -/
theorem exam_time_window (enr : Enrollment) (assignments : List Assignment)
    (aid : Nat) (now : Int) (db : ExamDb) (freshId : Nat)
    (d0 d1 : DockerState) (exam : Assignment)
    (hex : getExamAssignment assignments aid = some exam)
    (hcourse : exam.course_id = enr.course_id) :
    (∀ ts, exam.start_time = some ts → now < ts →
      examAccess (some enr) assignments aid now db freshId d0 d1 =
        ⟨ExamResult.notStarted ts, db, d1, []⟩) ∧
    (∀ te, exam.end_time = some te → te < now →
      beforeStart exam.start_time now = false →
      examAccess (some enr) assignments aid now db freshId d0 d1 =
        ⟨ExamResult.ended, db, d1, []⟩) ∧
    (beforeStart exam.start_time now = false →
      afterEnd exam.end_time now = false →
      getExamSessionByStudentAndAssignment db enr.student_id aid = none →
      (((examAccess (some enr) assignments aid now db freshId d0 d1).db.filter
          (fun t => t.student_id == enr.student_id && t.assignment_id == aid)).length
        = 1 ∧
       (∀ t ∈ (examAccess (some enr) assignments aid now db freshId d0 d1).db.filter
          (fun t => t.student_id == enr.student_id && t.assignment_id == aid),
         t.status = SessStatus.active) ∧
       (∀ ts, (examAccess (some enr) assignments aid now db freshId d0 d1).result ≠
         ExamResult.notStarted ts) ∧
       (examAccess (some enr) assignments aid now db freshId d0 d1).result ≠
         ExamResult.ended)) := by
  refine ⟨?_, ?_, ?_⟩
  · intro ts hts hlt
    simp [examAccess, hex, hcourse, hts, beforeStart, hlt]
  · intro te hte hlt hnb
    simp [examAccess, hex, hcourse, hnb, hte, afterEnd, hlt]
  · intro hnb hna hsess
    have hacc : examAccess (some enr) assignments aid now db freshId d0 d1 =
        examContainerPhase (examContainerName aid enr.student_id) freshId
          (createExamSession db aid enr.student_id freshId) d0 d1 := by
      simp [examAccess, hex, hcourse, hnb, hna, hsess]
    have hfil : db.filter
        (fun t => t.student_id == enr.student_id && t.assignment_id == aid) = [] := by
      rw [List.filter_eq_nil_iff]
      exact List.find?_eq_none.mp hsess
    have hfil1 : (createExamSession db aid enr.student_id freshId).filter
        (fun t => t.student_id == enr.student_id && t.assignment_id == aid) =
        [⟨freshId, aid, enr.student_id, none, SessStatus.active⟩] := by
      simp [createExamSession, List.filter_append, hfil]
    rcases examContainerPhase_db (examContainerName aid enr.student_id) freshId
        (createExamSession db aid enr.student_id freshId) d0 d1 with hdb | hdb
    · rw [hacc]
      refine ⟨?_, ?_, ?_, ?_⟩
      · rw [hdb, hfil1]; rfl
      · intro t ht
        rw [hdb, hfil1] at ht
        simp at ht
        rw [ht]
      · intro ts
        rcases examContainerPhase_result (examContainerName aid enr.student_id)
          freshId (createExamSession db aid enr.student_id freshId) d0 d1 with h | h <;>
          simp [h]
      · rcases examContainerPhase_result (examContainerName aid enr.student_id)
          freshId (createExamSession db aid enr.student_id freshId) d0 d1 with h | h <;>
          simp [h]
    · rw [hacc]
      have hfil2 : (updateExamSessionContainer
          (createExamSession db aid enr.student_id freshId) freshId
          (examContainerName aid enr.student_id)).filter
          (fun t => t.student_id == enr.student_id && t.assignment_id == aid) =
          [⟨freshId, aid, enr.student_id,
            some (examContainerName aid enr.student_id), SessStatus.active⟩] := by
        rw [upd_filter_pair, hfil1]
        simp
      refine ⟨?_, ?_, ?_, ?_⟩
      · rw [hdb, hfil2]; rfl
      · intro t ht
        rw [hdb, hfil2] at ht
        simp at ht
        rw [ht]
      · intro ts
        rcases examContainerPhase_result (examContainerName aid enr.student_id)
          freshId (createExamSession db aid enr.student_id freshId) d0 d1 with h | h <;>
          simp [h]
      · rcases examContainerPhase_result (examContainerName aid enr.student_id)
          freshId (createExamSession db aid enr.student_id freshId) d0 d1 with h | h <;>
          simp [h]

/-- Concrete instance of `exam_time_window`: assignment 9 of course 3
with window [10, 20]; access at 5 is refused as not started, at 25 as
ended, and at 15 it creates exactly one active session. -/
theorem exam_time_window_witness :
    (examAccess (some ⟨1, 4, 3⟩) [⟨9, 3, true, some 10, some 20⟩] 9 5 [] 1 [] [] =
      ⟨ExamResult.notStarted 10, [], [], []⟩) ∧
    (examAccess (some ⟨1, 4, 3⟩) [⟨9, 3, true, some 10, some 20⟩] 9 25 [] 1 [] [] =
      ⟨ExamResult.ended, [], [], []⟩) ∧
    ((examAccess (some ⟨1, 4, 3⟩) [⟨9, 3, true, some 10, some 20⟩] 9 15 []
        1 [] []).db.filter
      (fun t => t.student_id == 4 && t.assignment_id == 9)).length = 1 :=
  ⟨(exam_time_window ⟨1, 4, 3⟩ [⟨9, 3, true, some 10, some 20⟩] 9 5 [] 1 [] []
      ⟨9, 3, true, some 10, some 20⟩ (by decide) rfl).1 10 rfl (by decide),
   (exam_time_window ⟨1, 4, 3⟩ [⟨9, 3, true, some 10, some 20⟩] 9 25 [] 1 [] []
      ⟨9, 3, true, some 10, some 20⟩ (by decide) rfl).2.1 20 rfl (by decide) (by decide),
   ((exam_time_window ⟨1, 4, 3⟩ [⟨9, 3, true, some 10, some 20⟩] 9 15 [] 1 [] []
      ⟨9, 3, true, some 10, some 20⟩ (by decide) rfl).2.2 (by decide) (by decide)
      (by decide)).1⟩

/-- C6: in the per-session termination sequence shared by every
termination path (professor end, on-demand expiry check and interval
sweep), the container stop and remove calls come strictly before the
durable record is marked completed: any prefix of the sequence that
already contains the completed-marking also contains both container
calls.  A crash part-way can leave a stopped container with a
still-active record, never a completed record with an unattempted
container termination. -/
theorem termination_marks_after_container (s : ExamSessionRec) (n : Nat)
    (cid : String) (hc : s.container_id = some cid)
    (hmark : Ev.markCompleted s.id ∈ (terminationEvents s).take n) :
    Ev.stopContainer cid ∈ (terminationEvents s).take n ∧
    Ev.removeContainer cid ∈ (terminationEvents s).take n := by
  have ht : terminationEvents s =
      [Ev.stopContainer cid, Ev.removeContainer cid, Ev.markCompleted s.id,
       Ev.forgetKey (examContainerName s.assignment_id s.student_id)] := by
    simp [terminationEvents, hc]
  rw [ht] at hmark ⊢
  match n with
  | 0 => simp at hmark
  | 1 => simp at hmark
  | 2 => simp at hmark
  | (m + 3) => simp

/-- Concrete instance of `termination_marks_after_container`. -/
theorem termination_marks_after_container_witness :
    Ev.stopContainer "c" ∈
      (terminationEvents ⟨5, 9, 4, some "c", SessStatus.active⟩).take 3 ∧
    Ev.removeContainer "c" ∈
      (terminationEvents ⟨5, 9, 4, some "c", SessStatus.active⟩).take 3 :=
  termination_marks_after_container ⟨5, 9, 4, some "c", SessStatus.active⟩ 3 "c"
    rfl (by decide)

/-- Marking session `i` completed leaves every row with id `i`
completed. -/
theorem endExamSession_completed (db : ExamDb) (i : Nat) :
    ∀ t ∈ endExamSession db i, t.id = i → t.status = SessStatus.completed := by
  intro t ht hid
  unfold endExamSession at ht
  rcases List.mem_map.mp ht with ⟨u, hu, rfl⟩
  by_cases h : u.id = i
  · simp [h]
  · simp [h] at hid

/-- Rows already completed for id `i` stay completed under any later
`endExamSession` call. -/
theorem endExamSession_preserve (db : ExamDb) (j i : Nat)
    (h : ∀ t ∈ db, t.id = i → t.status = SessStatus.completed) :
    ∀ t ∈ endExamSession db j, t.id = i → t.status = SessStatus.completed := by
  intro t ht hid
  unfold endExamSession at ht
  rcases List.mem_map.mp ht with ⟨u, hu, rfl⟩
  by_cases hj : u.id = j
  · simp [hj]
  · simp [hj] at hid ⊢
    exact h u hu hid

/-- If every row of the accumulator with id `i` is completed, the sweep
fold keeps it so. -/
theorem foldl_end_preserve (assignments : List Assignment) (now : Int)
    (i : Nat) (l : List ExamSessionRec) (acc : ExamDb)
    (h : ∀ t ∈ acc, t.id = i → t.status = SessStatus.completed) :
    ∀ t ∈ l.foldl (fun acc s => if sessionExpired assignments now s then
        endExamSession acc s.id else acc) acc,
      t.id = i → t.status = SessStatus.completed := by
  induction l generalizing acc with
  | nil => exact h
  | cons x xs ih =>
    simp only [List.foldl_cons]
    by_cases hx : sessionExpired assignments now x
    · rw [if_pos hx]
      exact ih _ (endExamSession_preserve acc x.id i h)
    · rw [if_neg hx]
      exact ih _ h

/-- Once the sweep fold has processed an expired session of its
snapshot, every row carrying that session's id is completed. -/
theorem foldl_end_marks (assignments : List Assignment) (now : Int)
    (s : ExamSessionRec) (l : List ExamSessionRec) (acc : ExamDb)
    (hs : s ∈ l) (hexp : sessionExpired assignments now s = true) :
    ∀ t ∈ l.foldl (fun acc u => if sessionExpired assignments now u then
        endExamSession acc u.id else acc) acc,
      t.id = s.id → t.status = SessStatus.completed := by
  revert hs
  induction l generalizing acc with
  | nil => intro hs; cases hs
  | cons x xs ih =>
    intro hs
    simp only [List.foldl_cons]
    rcases List.mem_cons.mp hs with rfl | hs'
    · rw [if_pos hexp]
      exact foldl_end_preserve assignments now s.id xs _
        (endExamSession_completed acc s.id)
    · by_cases hx : sessionExpired assignments now x
      · rw [if_pos hx]; exact ih _ hs'
      · rw [if_neg hx]; exact ih _ hs'

/-- A completed-marking event in a termination sequence names that very
session. -/
theorem mark_mem_termination (u : ExamSessionRec) (n : Nat)
    (h : Ev.markCompleted n ∈ terminationEvents u) : n = u.id := by
  cases hc : u.container_id <;> simp [terminationEvents, hc] at h <;> exact h

/-- C5: running the sweep twice with the same clock terminates an
expired active session exactly once.  The first run emits its stop and
remove calls and marks its record completed; the second run's snapshot
of active sessions no longer contains it, so the second run emits no
completion event for it. -/
theorem sweep_terminates_once (assignments : List Assignment) (now : Int)
    (db : ExamDb) (s : ExamSessionRec) (hmem : s ∈ db)
    (hact : s.status = SessStatus.active)
    (hexp : sessionExpired assignments now s = true) :
    Ev.markCompleted s.id ∈ sweepEv assignments now db ∧
    (∀ cid, s.container_id = some cid →
      Ev.stopContainer cid ∈ sweepEv assignments now db ∧
      Ev.removeContainer cid ∈ sweepEv assignments now db) ∧
    (∀ t ∈ sweepDb assignments now db, t.id = s.id →
      t.status = SessStatus.completed) ∧
    (∀ u ∈ getActiveExamSessions (sweepDb assignments now db), u.id ≠ s.id) ∧
    Ev.markCompleted s.id ∉
      sweepEv assignments now (sweepDb assignments now db) := by
  have hsact : s ∈ getActiveExamSessions db :=
    List.mem_filter.mpr ⟨hmem, by simp [hact]⟩
  have hsexp : s ∈ (getActiveExamSessions db).filter
      (sessionExpired assignments now) :=
    List.mem_filter.mpr ⟨hsact, hexp⟩
  have hdone : ∀ t ∈ sweepDb assignments now db, t.id = s.id →
      t.status = SessStatus.completed := by
    unfold sweepDb
    exact foldl_end_marks assignments now s (getActiveExamSessions db) db
      hsact hexp
  have hnoact : ∀ u ∈ getActiveExamSessions (sweepDb assignments now db),
      u.id ≠ s.id := by
    intro u hu hid
    rcases List.mem_filter.mp hu with ⟨humem, hust⟩
    have := hdone u humem hid
    simp [this] at hust
  refine ⟨?_, ?_, hdone, hnoact, ?_⟩
  · exact List.mem_flatMap.mpr ⟨s, hsexp, by
      cases hc : s.container_id <;> simp [terminationEvents, hc]⟩
  · intro cid hc
    constructor <;>
      exact List.mem_flatMap.mpr ⟨s, hsexp, by simp [terminationEvents, hc]⟩
  · intro hmark
    rcases List.mem_flatMap.mp hmark with ⟨u, humem, hev⟩
    have hid : s.id = u.id := mark_mem_termination u s.id hev
    rcases List.mem_filter.mp humem with ⟨huact, _⟩
    exact hnoact u huact hid.symm

/-- Concrete instance of `sweep_terminates_once`: assignment 9 ends at
time 20; at time 25 the first sweep marks session 5 completed and the
second sweep does not touch it. -/
theorem sweep_terminates_once_witness :
    Ev.markCompleted 5 ∈ sweepEv [⟨9, 3, true, some 10, some 20⟩] 25
      [⟨5, 9, 4, some "c", SessStatus.active⟩] ∧
    Ev.markCompleted 5 ∉ sweepEv [⟨9, 3, true, some 10, some 20⟩] 25
      (sweepDb [⟨9, 3, true, some 10, some 20⟩] 25
        [⟨5, 9, 4, some "c", SessStatus.active⟩]) :=
  ⟨(sweep_terminates_once [⟨9, 3, true, some 10, some 20⟩] 25
      [⟨5, 9, 4, some "c", SessStatus.active⟩]
      ⟨5, 9, 4, some "c", SessStatus.active⟩ (by decide) rfl (by decide)).1,
   (sweep_terminates_once [⟨9, 3, true, some 10, some 20⟩] 25
      [⟨5, 9, 4, some "c", SessStatus.active⟩]
      ⟨5, 9, 4, some "c", SessStatus.active⟩ (by decide) rfl
      (by decide)).2.2.2.2⟩

/-- Recording a container id changes no pair count. -/
theorem nonCompletedCount_upd (db : ExamDb) (i : Nat) (c : String)
    (aid sid : Nat) :
    nonCompletedCount (updateExamSessionContainer db i c) aid sid =
      nonCompletedCount db aid sid := by
  unfold nonCompletedCount updateExamSessionContainer
  induction db with
  | nil => rfl
  | cons a l ih =>
    simp only [List.map_cons, List.countP_cons, ih]
    by_cases h : a.id = i <;> simp [h]

/-- Marking a session completed never increases a pair count. -/
theorem nonCompletedCount_end_le (db : ExamDb) (i : Nat) (aid sid : Nat) :
    nonCompletedCount (endExamSession db i) aid sid ≤
      nonCompletedCount db aid sid := by
  unfold nonCompletedCount endExamSession
  induction db with
  | nil => simp
  | cons a l ih =>
    simp only [List.map_cons, List.countP_cons]
    refine Nat.add_le_add ih ?_
    by_cases h : a.id = i
    · simp [h]
    · simp [h]

theorem sessionInvariant_upd (db : ExamDb) (i : Nat) (c : String)
    (hinv : sessionInvariant db) :
    sessionInvariant (updateExamSessionContainer db i c) := by
  intro aid sid
  rw [nonCompletedCount_upd]
  exact hinv aid sid

theorem sessionInvariant_end (db : ExamDb) (i : Nat)
    (hinv : sessionInvariant db) :
    sessionInvariant (endExamSession db i) := by
  intro aid sid
  exact Nat.le_trans (nonCompletedCount_end_le db i aid sid) (hinv aid sid)

/-- Inserting a fresh active session for a pair with no recorded session
keeps every pair count at one or below. -/
theorem sessionInvariant_create (db : ExamDb) (aid sid freshId : Nat)
    (hinv : sessionInvariant db)
    (hnone : getExamSessionByStudentAndAssignment db sid aid = none) :
    sessionInvariant (createExamSession db aid sid freshId) := by
  intro a s
  unfold nonCompletedCount createExamSession
  rw [List.countP_append]
  have hall : ∀ x ∈ db, ¬(x.student_id == sid && x.assignment_id == aid) = true :=
    List.find?_eq_none.mp hnone
  by_cases hmatch : a = aid ∧ s = sid
  · obtain ⟨rfl, rfl⟩ := hmatch
    have hz : db.countP (fun t => t.assignment_id == a && t.student_id == s &&
        !(t.status == SessStatus.completed)) = 0 := by
      rw [List.countP_eq_zero]
      intro x hx hpx
      simp only [Bool.and_eq_true, beq_iff_eq] at hpx
      exact hall x hx (by simp [hpx.1.1, hpx.1.2])
    simp [hz]
  · have hnew : ((⟨freshId, aid, sid, none, SessStatus.active⟩ :
        ExamSessionRec).assignment_id == a &&
        (⟨freshId, aid, sid, none, SessStatus.active⟩ :
          ExamSessionRec).student_id == s &&
        !((⟨freshId, aid, sid, none, SessStatus.active⟩ :
          ExamSessionRec).status == SessStatus.completed)) = false := by
      rcases Decidable.not_and_iff_or_not.mp hmatch with h | h <;>
        simp [Ne.symm h]
    simp only [List.countP_cons, List.countP_nil, hnew]
    simpa using hinv a s

theorem sessionInvariant_sweepDb (assignments : List Assignment) (now : Int)
    (db : ExamDb) (hinv : sessionInvariant db) :
    sessionInvariant (sweepDb assignments now db) := by
  unfold sweepDb
  suffices h : ∀ (l : List ExamSessionRec) (acc : ExamDb), sessionInvariant acc →
      sessionInvariant (l.foldl (fun acc s =>
        if sessionExpired assignments now s then endExamSession acc s.id
        else acc) acc) by
    exact h _ db hinv
  intro l
  induction l with
  | nil => intro acc h; exact h
  | cons x xs ih =>
    intro acc h
    simp only [List.foldl_cons]
    by_cases hx : sessionExpired assignments now x
    · rw [if_pos hx]; exact ih _ (sessionInvariant_end acc x.id h)
    · rw [if_neg hx]; exact ih _ h

/-- C8: every operation touching the exam-session table preserves the
invariant of at most one non-completed ExamSession per
(assignment, student) pair — exam access creates a session only when
the pair lookup finds none, and session completion and the expiry sweep
only demote statuses. -/
theorem exam_pair_uniqueness (enrOpt : Option Enrollment)
    (assignments : List Assignment) (aid : Nat) (now : Int) (db : ExamDb)
    (freshId : Nat) (d0 d1 : DockerState) (i : Nat)
    (hinv : sessionInvariant db) :
    sessionInvariant (examAccess enrOpt assignments aid now db freshId d0 d1).db ∧
    sessionInvariant (endExamSession db i) ∧
    sessionInvariant (sweepDb assignments now db) := by
  refine ⟨?_, sessionInvariant_end db i hinv,
    sessionInvariant_sweepDb assignments now db hinv⟩
  cases enrOpt with
  | none => simpa [examAccess] using hinv
  | some enr =>
    cases hex : getExamAssignment assignments aid with
    | none => simpa [examAccess, hex] using hinv
    | some exam =>
      by_cases hc : exam.course_id ≠ enr.course_id
      · simpa [examAccess, hex, hc] using hinv
      · by_cases hb : beforeStart exam.start_time now
        · simpa [examAccess, hex, hc, hb] using hinv
        · by_cases ha : afterEnd exam.end_time now
          · simpa [examAccess, hex, hc, hb, ha] using hinv
          · cases hsess : getExamSessionByStudentAndAssignment db
                enr.student_id aid with
            | some s =>
              by_cases hdone : s.status = SessStatus.completed
              · simpa [examAccess, hex, hc, hb, ha, hsess, hdone] using hinv
              · have hacc :
                    (examAccess (some enr) assignments aid now db freshId
                      d0 d1).db =
                    (examContainerPhase (examContainerName aid enr.student_id)
                      s.id db d0 d1).db := by
                  simp [examAccess, hex, hc, hb, ha, hsess, hdone]
                rw [hacc]
                rcases examContainerPhase_db
                    (examContainerName aid enr.student_id) s.id db d0 d1 with
                  h | h <;> rw [h]
                · exact hinv
                · exact sessionInvariant_upd db s.id _ hinv
            | none =>
              have hacc :
                  (examAccess (some enr) assignments aid now db freshId
                    d0 d1).db =
                  (examContainerPhase (examContainerName aid enr.student_id)
                    freshId (createExamSession db aid enr.student_id freshId)
                    d0 d1).db := by
                simp [examAccess, hex, hc, hb, ha, hsess]
              have hcr : sessionInvariant
                  (createExamSession db aid enr.student_id freshId) :=
                sessionInvariant_create db aid enr.student_id freshId hinv hsess
              rw [hacc]
              rcases examContainerPhase_db
                  (examContainerName aid enr.student_id) freshId
                  (createExamSession db aid enr.student_id freshId) d0 d1 with
                h | h <;> rw [h]
              · exact hcr
              · exact sessionInvariant_upd _ freshId _ hcr

/-- Concrete instance of `exam_pair_uniqueness`: after a first exam
access on an empty table, pair (9, 4) has exactly at most one
non-completed session. -/
theorem exam_pair_uniqueness_witness :
    nonCompletedCount
      (examAccess (some ⟨1, 4, 3⟩) [⟨9, 3, true, none, none⟩] 9 0 [] 1
        [] []).db 9 4 ≤ 1 :=
  (exam_pair_uniqueness (some ⟨1, 4, 3⟩) [⟨9, 3, true, none, none⟩] 9 0 [] 1
    [] [] 0 (by intro aid sid; simp [nonCompletedCount])).1 9 4

/-- Marking a different session completed leaves the rows of id `i`
untouched. -/
theorem endExamSession_filter_ne (db : ExamDb) (j i : Nat) (h : ¬j = i) :
    (endExamSession db j).filter (fun t => t.id == i) =
      db.filter (fun t => t.id == i) := by
  unfold endExamSession
  induction db with
  | nil => rfl
  | cons a l ih =>
    simp only [List.map_cons, List.filter_cons]
    by_cases ha : a.id = j
    · simp [ha, h, ih]
    · simp [ha, ih]

/-- A sweep that never processes a session of id `i` leaves the rows of
id `i` untouched. -/
theorem sweep_skip_filter (assignments : List Assignment) (now : Int)
    (i : Nat) (l : List ExamSessionRec) (acc : ExamDb)
    (h : ∀ u ∈ l, sessionExpired assignments now u = true → u.id ≠ i) :
    (l.foldl (fun acc s => if sessionExpired assignments now s then
        endExamSession acc s.id else acc) acc).filter (fun t => t.id == i) =
      acc.filter (fun t => t.id == i) := by
  induction l generalizing acc with
  | nil => rfl
  | cons x xs ih =>
    simp only [List.foldl_cons]
    by_cases hx : sessionExpired assignments now x
    · rw [if_pos hx,
        ih (endExamSession acc x.id) (fun u hu => h u (List.mem_cons_of_mem x hu)),
        endExamSession_filter_ne acc x.id i (h x (List.mem_cons_self x xs) hx)]
    · rw [if_neg hx]
      exact ih acc (fun u hu => h u (List.mem_cons_of_mem x hu))

/-- When the looked-up assignment's end gate is closed, exam access
never answers the ended refusal. -/
theorem examAccess_no_ended (enrOpt : Option Enrollment)
    (assignments : List Assignment) (aid : Nat) (now : Int) (db : ExamDb)
    (freshId : Nat) (d0 d1 : DockerState)
    (h : ∀ exam, getExamAssignment assignments aid = some exam →
      afterEnd exam.end_time now = false) :
    (examAccess enrOpt assignments aid now db freshId d0 d1).result ≠
      ExamResult.ended := by
  cases enrOpt with
  | none => simp [examAccess]
  | some enr =>
    cases hex : getExamAssignment assignments aid with
    | none => simp [examAccess, hex]
    | some exam =>
      have ha := h exam hex
      by_cases hc : exam.course_id ≠ enr.course_id
      · simp [examAccess, hex, hc]
      · by_cases hb : beforeStart exam.start_time now
        · simp [examAccess, hex, hc, hb]
        · cases hsess : getExamSessionByStudentAndAssignment db
              enr.student_id aid with
          | some s =>
            by_cases hdone : s.status = SessStatus.completed
            · simp [examAccess, hex, hc, hb, ha, hsess, hdone]
            · have hres :
                  (examAccess (some enr) assignments aid now db freshId
                    d0 d1).result =
                  (examContainerPhase (examContainerName aid enr.student_id)
                    s.id db d0 d1).result := by
                simp [examAccess, hex, hc, hb, ha, hsess, hdone]
              rw [hres]
              rcases examContainerPhase_result
                  (examContainerName aid enr.student_id) s.id db d0 d1 with
                h2 | h2 <;> simp [h2]
          | none =>
            have hres :
                (examAccess (some enr) assignments aid now db freshId
                  d0 d1).result =
                (examContainerPhase (examContainerName aid enr.student_id)
                  freshId (createExamSession db aid enr.student_id freshId)
                  d0 d1).result := by
              simp [examAccess, hex, hc, hb, ha, hsess]
            rw [hres]
            rcases examContainerPhase_result
                (examContainerName aid enr.student_id) freshId
                (createExamSession db aid enr.student_id freshId) d0 d1 with
              h2 | h2 <;> simp [h2]

/-- When the looked-up assignment's start gate is open, exam access
never answers a not-started refusal. -/
theorem examAccess_no_notStarted (enrOpt : Option Enrollment)
    (assignments : List Assignment) (aid : Nat) (now : Int) (db : ExamDb)
    (freshId : Nat) (d0 d1 : DockerState)
    (h : ∀ exam, getExamAssignment assignments aid = some exam →
      beforeStart exam.start_time now = false) :
    ∀ ts, (examAccess enrOpt assignments aid now db freshId d0 d1).result ≠
      ExamResult.notStarted ts := by
  intro ts
  cases enrOpt with
  | none => simp [examAccess]
  | some enr =>
    cases hex : getExamAssignment assignments aid with
    | none => simp [examAccess, hex]
    | some exam =>
      have hb := h exam hex
      by_cases hc : exam.course_id ≠ enr.course_id
      · simp [examAccess, hex, hc]
      · by_cases ha : afterEnd exam.end_time now
        · simp [examAccess, hex, hc, hb, ha]
        · cases hsess : getExamSessionByStudentAndAssignment db
              enr.student_id aid with
          | some s =>
            by_cases hdone : s.status = SessStatus.completed
            · simp [examAccess, hex, hc, hb, ha, hsess, hdone]
            · have hres :
                  (examAccess (some enr) assignments aid now db freshId
                    d0 d1).result =
                  (examContainerPhase (examContainerName aid enr.student_id)
                    s.id db d0 d1).result := by
                simp [examAccess, hex, hc, hb, ha, hsess, hdone]
              rw [hres]
              rcases examContainerPhase_result
                  (examContainerName aid enr.student_id) s.id db d0 d1 with
                h2 | h2 <;> simp [h2]
          | none =>
            have hres :
                (examAccess (some enr) assignments aid now db freshId
                  d0 d1).result =
                (examContainerPhase (examContainerName aid enr.student_id)
                  freshId (createExamSession db aid enr.student_id freshId)
                  d0 d1).result := by
              simp [examAccess, hex, hc, hb, ha, hsess]
            rw [hres]
            rcases examContainerPhase_result
                (examContainerName aid enr.student_id) freshId
                (createExamSession db aid enr.student_id freshId) d0 d1 with
              h2 | h2 <;> simp [h2]

/-- C10: a null `end_time` means exam access never answers the ended
refusal and the sweep never terminates the assignment's active sessions
— whatever the clock says, the session's rows survive every sweep
unchanged until the operator action completes them; symmetrically a
null `start_time` skips the not-started check. -/
theorem null_window_no_refusal (enr : Enrollment)
    (assignments : List Assignment) (aid : Nat) (now : Int) (db : ExamDb)
    (freshId : Nat) (d0 d1 : DockerState) (exam : Assignment)
    (s : ExamSessionRec)
    (hex : getExamAssignment assignments aid = some exam) :
    (exam.end_time = none →
      (examAccess (some enr) assignments aid now db freshId d0 d1).result ≠
        ExamResult.ended) ∧
    (exam.start_time = none → ∀ ts,
      (examAccess (some enr) assignments aid now db freshId d0 d1).result ≠
        ExamResult.notStarted ts) ∧
    (s ∈ db → s.status = SessStatus.active →
      assignmentEndTime assignments s.assignment_id = none →
      (∀ u ∈ db, u.id = s.id → u = s) →
      (Ev.markCompleted s.id ∉ sweepEv assignments now db ∧
       (sweepDb assignments now db).filter (fun t => t.id == s.id) =
         db.filter (fun t => t.id == s.id))) ∧
    (∀ t ∈ endExamSession db s.id, t.id = s.id →
      t.status = SessStatus.completed) := by
  refine ⟨?_, ?_, ?_, endExamSession_completed db s.id⟩
  · intro hn
    exact examAccess_no_ended (some enr) assignments aid now db freshId d0 d1
      (fun e he => by
        rw [hex] at he
        cases he
        simp [afterEnd, hn])
  · intro hn
    exact examAccess_no_notStarted (some enr) assignments aid now db freshId
      d0 d1
      (fun e he => by
        rw [hex] at he
        cases he
        simp [beforeStart, hn])
  · intro hmem hact hnone huniq
    have hsexp : sessionExpired assignments now s = false := by
      simp [sessionExpired, hnone]
    constructor
    · intro hmark
      rcases List.mem_flatMap.mp hmark with ⟨u, humem, hev⟩
      have hid := mark_mem_termination u s.id hev
      rcases List.mem_filter.mp humem with ⟨huact, huexp⟩
      rcases List.mem_filter.mp huact with ⟨humemdb, _⟩
      have hu : u = s := huniq u humemdb hid.symm
      rw [hu, hsexp] at huexp
      cases huexp
    · unfold sweepDb
      apply sweep_skip_filter
      intro u humem huexp hid
      have humemdb : u ∈ db := (List.mem_filter.mp humem).1
      have hu : u = s := huniq u humemdb hid
      rw [hu, hsexp] at huexp
      cases huexp

/-- Concrete instance of `null_window_no_refusal`: assignment 9 has no
end time; access at time 100 is not refused as ended and the sweep at
time 100 leaves active session 5 alone. -/
theorem null_window_no_refusal_witness :
    (examAccess (some ⟨1, 4, 3⟩) [⟨9, 3, true, none, none⟩] 9 100
      [⟨5, 9, 4, none, SessStatus.active⟩] 7 [] []).result ≠
      ExamResult.ended ∧
    Ev.markCompleted 5 ∉ sweepEv [⟨9, 3, true, none, none⟩] 100
      [⟨5, 9, 4, none, SessStatus.active⟩] :=
  ⟨(null_window_no_refusal ⟨1, 4, 3⟩ [⟨9, 3, true, none, none⟩] 9 100
      [⟨5, 9, 4, none, SessStatus.active⟩] 7 [] []
      ⟨9, 3, true, none, none⟩ ⟨5, 9, 4, none, SessStatus.active⟩
      (by decide)).1 rfl,
   ((null_window_no_refusal ⟨1, 4, 3⟩ [⟨9, 3, true, none, none⟩] 9 100
      [⟨5, 9, 4, none, SessStatus.active⟩] 7 [] []
      ⟨9, 3, true, none, none⟩ ⟨5, 9, 4, none, SessStatus.active⟩
      (by decide)).2.2.1 (by decide) rfl (by decide) (by decide)).1⟩

end SecureExam
